import Mathlib

/-!
Verification development for the quanticity_capital ingestion engine.

Shallow embedding of:
- `src/ingestion/aggregators/price_bars.py` (PriceBarAggregator.add_tick)
- `src/ingestion/rate_limit.py` (TokenBucket)
- `src/ingestion/rest/scheduler.py` (RestScheduler._run_request)
- `src/ingestion/handlers/price.py` (PriceHandler.handle, ticker inference)
- `archive/phase1/ingestion_phase1/websocket_consumer.py` (WebsocketConsumer)
- `archive/phase1/ingestion_phase1/handlers/option_trades.py` (OptionTradeHandler)

Machine reals (Python floats for prices, monotonic-clock seconds) are modelled
as rationals; Python dicts are modelled as association lists in insertion
order with unique keys; exceptions are modelled with `Except`.
-/

namespace QC

instance {ε α : Type} [DecidableEq ε] [DecidableEq α] : DecidableEq (Except ε α)
  | .error x, .error y =>
      if h : x = y then .isTrue (by rw [h]) else .isFalse (by intro hab; cases hab; exact h rfl)
  | .error _, .ok _ => .isFalse (by intro hab; cases hab)
  | .ok _, .error _ => .isFalse (by intro hab; cases hab)
  | .ok x, .ok y =>
      if h : x = y then .isTrue (by rw [h]) else .isFalse (by intro hab; cases hab; exact h rfl)

/-- Python `datetime` restricted to the fields the code touches.
Timezone awareness is irrelevant to every arithmetic step modelled here
(no cross-zone operation occurs), so the tzinfo field is omitted. -/
structure DateTime where
  year : Nat
  month : Nat
  day : Nat
  hour : Nat
  minute : Nat
  second : Nat
  microsecond : Nat
deriving DecidableEq, Repr

/-- `dt.replace(second=0, microsecond=0)`: truncate to the start of the minute. -/
def DateTime.truncToMinute (d : DateTime) : DateTime :=
  { d with second := 0, microsecond := 0 }

/-- `dt.replace(minute=m)`: Python raises `ValueError` when `m` is outside 0..59. -/
def DateTime.replaceMinute (d : DateTime) (m : Nat) : Except String DateTime :=
  if m ≤ 59 then .ok { d with minute := m }
  else .error "minute must be in 0..59"

/-- `PriceBar` dataclass of `price_bars.py` (`open`/`end` are Lean keywords,
hence the underscore suffix). -/
structure PriceBar where
  ticker : String
  start : DateTime
  end_ : DateTime
  open_ : ℚ
  high : ℚ
  low : ℚ
  close : ℚ
deriving DecidableEq, Repr

/-- The fields of `PriceTickMessage` read by the aggregator. -/
structure PriceTickMessage where
  ticker : String
  event_timestamp : DateTime
  last_price : ℚ
deriving DecidableEq, Repr

/-- Python `str.upper()` (the tickers handled by the system are ASCII). -/
def pyUpper (s : String) : String := ⟨s.data.map Char.toUpper⟩

/-- Python dict assignment `d[k] = v` on an association list in insertion
order: replace the value in place when the key exists, append otherwise. -/
def upsert {β : Type} (k : String) (v : β) : List (String × β) → List (String × β)
  | [] => [(k, v)]
  | (k', v') :: rest => if k' = k then (k, v) :: rest else (k', v') :: upsert k v rest

/-- `PriceBarAggregator.add_tick`.  The per-ticker state `self._state` is the
association list; the `Except` layer records the `ValueError` that
`rounded_start.replace(minute=rounded_start.minute + 1)` raises when the
tick falls in minute 59. -/
def PriceBarAggregator.add_tick (state : List (String × PriceBar))
    (message : PriceTickMessage) :
    Except String (Option PriceBar × PriceBar × List (String × PriceBar)) :=
  let rounded_start := message.event_timestamp.truncToMinute
  match rounded_start.replaceMinute (rounded_start.minute + 1) with
  | .error e => .error e
  | .ok rounded_end =>
    let ticker := pyUpper message.ticker
    match state.lookup ticker with
    | none =>
        let current : PriceBar :=
          { ticker := ticker, start := rounded_start, end_ := rounded_end,
            open_ := message.last_price, high := message.last_price,
            low := message.last_price, close := message.last_price }
        .ok (none, current, upsert ticker current state)
    | some current =>
        if current.start ≠ rounded_start then
          let fresh : PriceBar :=
            { ticker := ticker, start := rounded_start, end_ := rounded_end,
              open_ := message.last_price, high := message.last_price,
              low := message.last_price, close := message.last_price }
          .ok (some current, fresh, upsert ticker fresh state)
        else
          let updated : PriceBar :=
            { current with
              high := max current.high message.last_price,
              low := min current.low message.last_price,
              close := message.last_price }
          .ok (none, updated, upsert ticker updated state)

/-- OHLC well-formedness from the spec's Price Bar invariant. -/
def PriceBar.wf (bar : PriceBar) : Prop :=
  bar.low ≤ bar.high ∧ bar.open_ ≤ bar.high ∧ bar.close ≤ bar.high ∧
  bar.low ≤ bar.open_ ∧ bar.low ≤ bar.close

instance (bar : PriceBar) : Decidable bar.wf := by
  unfold PriceBar.wf; infer_instance

/-! ## Token bucket rate limiter (`src/ingestion/rate_limit.py`) -/

/-- One entry of `TokenBucket._waiters`: the future/requested-tokens pair.
`done` models `future.done()` (a future already cancelled before the drain
reaches it); a fresh waiter enters the queue with `done := false`. -/
structure Waiter where
  id : Nat
  req : Nat
  done : Bool
deriving DecidableEq, Repr

/-- `TokenBucket` state: capacity, current (real-valued) tokens, FIFO waiter
queue.  The refill rate and last-refill instant are modelled by passing the
elapsed time and rate to `refill` explicitly. -/
structure TokenBucket where
  capacity : ℚ
  tokens : ℚ
  waiters : List Waiter
deriving DecidableEq, Repr

/-- `TokenBucket._drain_waiters`: pop waiters from the head while the head's
request is covered; a popped waiter whose future is already done is skipped
without debit, otherwise its request is debited and its future resolved.
Returns (tokens after, queue after, released waiters in release order). -/
def TokenBucket.drain_waiters : ℚ → List Waiter → ℚ × List Waiter × List Waiter
  | tokens, [] => (tokens, [], [])
  | tokens, w :: rest =>
    if (w.req : ℚ) ≤ tokens then
      if w.done then TokenBucket.drain_waiters tokens rest
      else
        let r := TokenBucket.drain_waiters (tokens - (w.req : ℚ)) rest
        (r.1, r.2.1, w :: r.2.2)
    else (tokens, w :: rest, [])

/-- `TokenBucket._refill`, with `elapsed = now - self._last_refill` and the
refill rate passed explicitly.  Returns the new bucket and the waiters the
embedded drain released. -/
def TokenBucket.refill (b : TokenBucket) (elapsed rate : ℚ) : TokenBucket × List Waiter :=
  if elapsed ≤ 0 then (b, [])
  else
    let amount := elapsed * rate
    if amount ≤ 0 then (b, [])
    else
      let t := min b.capacity (b.tokens + amount)
      let r := TokenBucket.drain_waiters t b.waiters
      ({ b with tokens := r.1, waiters := r.2.1 }, r.2.2)

/-- Did `acquire` debit immediately or enqueue a waiter? -/
inductive AcquireResult
  | immediate
  | queued
deriving DecidableEq, Repr

/-- `TokenBucket.acquire(tokens=n)` up to the suspension point: refill, then
either the immediate-debit path (tokens cover the request AND no waiter is
queued) or append a fresh waiter at the tail.  Returns the new bucket, the
waiters released by the refill's drain, and which path was taken. -/
def TokenBucket.acquire (b : TokenBucket) (elapsed rate : ℚ) (i n : Nat) :
    TokenBucket × List Waiter × AcquireResult :=
  let r := b.refill elapsed rate
  let b' := r.1
  if (n : ℚ) ≤ b'.tokens ∧ b'.waiters = [] then
    ({ b' with tokens := b'.tokens - (n : ℚ) }, r.2, .immediate)
  else
    ({ b' with waiters := b'.waiters ++ [⟨i, n, false⟩] }, r.2, .queued)

/-- Sum of the requests of a waiter list. -/
def waiterReqSum (ws : List Waiter) : ℚ := (ws.map fun w => (w.req : ℚ)).sum

/-! ## Streaming consumer reconnect loop
(`archive/phase1/ingestion_phase1/websocket_consumer.py`, `WebsocketConsumer.run`) -/

/-- The reconnect settings read by `WebsocketConsumer.run`. -/
structure ReconnectSettings where
  reconnect_min_seconds : ℚ
  reconnect_max_seconds : ℚ
  reconnect_max_attempts : Nat
deriving DecidableEq, Repr

/-- How one `_consume()` call ends, as observed by `run`'s try/except:
`connectFailed` — the connection attempt errored before streaming;
`streamedThenDropped` — the connection subscribed and streamed successfully and
then the server closed it (or the inactivity watchdog fired), which `_listen`
re-raises as `ConnectionClosed`; `stoppedCleanly` — `stop()` was requested, the
only way `_consume()` returns without raising. -/
inductive ConnOutcome
  | connectFailed
  | streamedThenDropped
  | stoppedCleanly
deriving DecidableEq, Repr

/-- `min(reconnect_min_seconds * 2 ** (attempt - 1), reconnect_max_seconds)`. -/
def backoffDelay (s : ReconnectSettings) (attempt : Nat) : ℚ :=
  min (s.reconnect_min_seconds * 2 ^ (attempt - 1)) s.reconnect_max_seconds

/-- The sleeps performed by `WebsocketConsumer.run` over a trace of connection
outcomes, starting from the given attempt counter.  Both failure outcomes raise
out of `_consume()`, so both take the `except Exception` branch: increment the
counter, sleep the backoff delay, and reset the counter to zero if it reached
`reconnect_max_attempts`.  `attempt = 0` is re-established by the
`await self._consume(); attempt = 0` pair only when `_consume()` returns
normally, i.e. on a clean stop, after which the `while` condition ends the
loop. -/
def WebsocketConsumer.runDelays (s : ReconnectSettings) :
    Nat → List ConnOutcome → List ℚ
  | _, [] => []
  | attempt, o :: rest =>
    match o with
    | .stoppedCleanly => []
    | _ =>
      let a := attempt + 1
      let w := backoffDelay s a
      let a' := if s.reconnect_max_attempts ≤ a then 0 else a
      w :: WebsocketConsumer.runDelays s a' rest

/-! ## JSON values and Python truthiness (shared by the consumer and handlers) -/

/-- JSON values as decoded by `json.loads`; objects keep key order. -/
inductive JValue
  | null
  | bool (b : Bool)
  | num (q : ℚ)
  | str (s : String)
  | arr (xs : List JValue)
  | obj (fields : List (String × JValue))
deriving Repr, Inhabited

mutual

def JValue.beq : JValue → JValue → Bool
  | .null, .null => true
  | .bool a, .bool b => a == b
  | .num a, .num b => a == b
  | .str a, .str b => a == b
  | .arr a, .arr b => JValue.beqList a b
  | .obj a, .obj b => JValue.beqFields a b
  | _, _ => false

def JValue.beqList : List JValue → List JValue → Bool
  | [], [] => true
  | x :: xs, y :: ys => JValue.beq x y && JValue.beqList xs ys
  | _, _ => false

def JValue.beqFields : List (String × JValue) → List (String × JValue) → Bool
  | [], [] => true
  | (k, x) :: xs, (k', y) :: ys => k == k' && JValue.beq x y && JValue.beqFields xs ys
  | _, _ => false

end

/-- Python truthiness: `None`, `False`, `0`, `""`, `[]`, and `{}` (written
\x7b\x7d) are falsy; everything else is truthy. -/
def JValue.truthy : JValue → Bool
  | .null => false
  | .bool b => b
  | .num q => !(q == 0)
  | .str s => !(s == "")
  | .arr xs => !xs.isEmpty
  | .obj fs => !fs.isEmpty

/-- Python `x or y`: `x` when truthy, else `y`. -/
def JValue.pyOr (a b : JValue) : JValue := if a.truthy then a else b

/-- `d.get(k)` on a Python dict: the stored value, or `None` when absent. -/
def pyGet (fs : List (String × JValue)) (k : String) : JValue :=
  (fs.lookup k).getD .null

/-- `JValue.isObj v` is true exactly for `isinstance(v, dict)`. -/
def JValue.isObj : JValue → Bool
  | .obj _ => true
  | _ => false

/-! ## REST scheduler rate-limit handling
(`src/ingestion/rest/scheduler.py`, `RestScheduler._run_request`) -/

/-- One HTTP response as seen by `_run_request`.  `retryAfter` models a
server-provided retry hint (e.g. a Retry-After header); the field exists so
that theorems can state whether the code consults it. -/
structure RestResponse where
  status_code : Nat
  retryAfter : Option ℚ
  body : JValue
deriving Repr

/-- How `_run_request` ends. -/
inductive RunOutcome
  | completed (body : JValue)
  | abandoned
  | raised (status : Nat)
deriving Repr

/-- `RestScheduler._run_request` over the successive responses the HTTP client
returns, carrying the loop state (`attempt`, `backoff`): on 429, sleep
`backoff`, double it capped at 120, and return (abandon) once the incremented
attempt counter reaches 3; on any other 4xx/5xx, `raise_for_status` raises; on
success the payload is processed.  The limiter acquisition before each call is
a pure suspension and affects neither the sleeps nor the outcome.  Initial
call state: `attempt = 0`, `backoff = 10`.  Returns the sleeps performed and
the outcome (`none` when the response list is exhausted mid-loop). -/
def RestScheduler.run_request : List RestResponse → Nat → ℚ → List ℚ × Option RunOutcome
  | [], _, _ => ([], none)
  | resp :: rest, attempt, backoff =>
    let a := attempt + 1
    if resp.status_code = 429 then
      if 3 ≤ a then ([backoff], some .abandoned)
      else
        let r := RestScheduler.run_request rest a (min (backoff * 2) 120)
        (backoff :: r.1, r.2)
    else if 400 ≤ resp.status_code then ([], some (.raised resp.status_code))
    else ([], some (.completed resp.body))

/-! ## Websocket frame decoding
(`archive/phase1/ingestion_phase1/websocket_consumer.py`,
`WebsocketConsumer._dispatch/_extract_channel/_extract_data`) -/

/-- `_extract_channel`: `payload.get("channel") or payload.get("topic") or
payload.get("stream")` with Python `or` semantics (first truthy value wins;
an absent key contributes `None`). -/
def WebsocketConsumer.extract_channel (fs : List (String × JValue)) : JValue :=
  (pyGet fs "channel").pyOr ((pyGet fs "topic").pyOr (pyGet fs "stream"))

/-- `_extract_data`: a dict-valued `data` field, else a dict-valued `payload`
field, else — only when the literal key `"channel"` is present — the remaining
top-level fields with `channel`/`topic`/`stream` removed, else `None`. -/
def WebsocketConsumer.extract_data (fs : List (String × JValue)) :
    Option (List (String × JValue)) :=
  match fs.lookup "data" with
  | some (.obj d) => some d
  | _ =>
    match fs.lookup "payload" with
    | some (.obj d) => some d
    | _ =>
      if (fs.lookup "channel").isSome then
        some (fs.filter fun p => !(p.1 == "channel" || p.1 == "topic" || p.1 == "stream"))
      else none

/-- The channel/data pair `_dispatch` hands to the registered handlers, or
`none` when the frame is dropped (`if not channel or data is None: return`). -/
def WebsocketConsumer.decodeFrame (fs : List (String × JValue)) :
    Option (JValue × List (String × JValue)) :=
  let channel := WebsocketConsumer.extract_channel fs
  match WebsocketConsumer.extract_data fs with
  | none => none
  | some data => if channel.truthy then some (channel, data) else none

/-! ## Websocket dispatch to handlers and the consumer loop
(`archive/phase1/ingestion_phase1/websocket_consumer.py`,
`WebsocketConsumer._dispatch`/`_listen`) -/

/-- A registered channel handler: its channel name, an identifier, and the
behaviour of `handle(data)` — returning normally or raising. -/
structure ChannelHandler where
  channel : String
  hid : Nat
  behaviour : List (String × JValue) → Except String Unit

/-- The observable outcome of invoking one handler during dispatch: either the
handler handled the payload, or it raised and the exception was caught and
logged (`except Exception ... LOGGER.exception`). -/
inductive DispatchEvent
  | handled (hid : Nat)
  | loggedError (hid : Nat) (msg : String)
deriving DecidableEq, Repr

/-- The handler an event came from. -/
def DispatchEvent.source : DispatchEvent → Nat
  | .handled i => i
  | .loggedError i _ => i

/-- The `for handler in handlers: try ... except` loop of `_dispatch`: every
handler is invoked in order; a raising handler contributes a logged error and
the loop continues with the next handler. -/
def WebsocketConsumer.runHandlers (hs : List ChannelHandler)
    (data : List (String × JValue)) : List DispatchEvent :=
  match hs with
  | [] => []
  | h :: rest =>
    (match h.behaviour data with
      | .ok _ => DispatchEvent.handled h.hid
      | .error e => DispatchEvent.loggedError h.hid e) ::
    WebsocketConsumer.runHandlers rest data

/-- `self._handlers_by_channel.get(channel)`: the registry dict maps each
channel name to its handlers in registration order, so looking up a string
channel value filters the registration list.  A hashable non-string channel
value (`None`, a bool, a number) misses the dict and `get` returns `None`
(`if not handlers: return`); a list- or dict-valued channel is unhashable, so
`dict.get` raises `TypeError`, which `_dispatch` does not catch. -/
def WebsocketConsumer.handlersFor (registry : List ChannelHandler) (channel : JValue) :
    Except String (List ChannelHandler) :=
  match channel with
  | .str name => .ok (registry.filter fun h => h.channel == name)
  | .arr _ => .error "unhashable type"
  | .obj _ => .error "unhashable type"
  | _ => .ok []

/-- `_dispatch` for one raw frame: JSON parse (`.error` = `JSONDecodeError`,
caught and logged, frame dropped), frame decoding (dropped when channel or
data is missing), registry lookup (whose `TypeError` on an unhashable channel
value propagates to the caller), then the per-handler try/except loop. -/
def WebsocketConsumer.dispatch (registry : List ChannelHandler)
    (frame : Except Unit (List (String × JValue))) : Except String (List DispatchEvent) :=
  match frame with
  | .error _ => .ok []
  | .ok fs =>
    match WebsocketConsumer.decodeFrame fs with
    | none => .ok []
    | some (channel, data) =>
      match WebsocketConsumer.handlersFor registry channel with
      | .error e => .error e
      | .ok handlers => .ok (WebsocketConsumer.runHandlers handlers data)

/-- The `_listen` receive loop over the frames of one connection: frames are
dispatched in arrival order; an exception escaping `_dispatch` (the unhashable
channel `TypeError`) propagates out of `_listen` and ends the connection, so
the remaining frames are not dispatched.  Returns the events of the dispatched
frames and the escaped exception, if any. -/
def WebsocketConsumer.listen (registry : List ChannelHandler) :
    List (Except Unit (List (String × JValue))) →
    List (List DispatchEvent) × Option String
  | [] => ([], none)
  | frame :: rest =>
    match WebsocketConsumer.dispatch registry frame with
    | .error e => ([], some e)
    | .ok evs =>
      let r := WebsocketConsumer.listen registry rest
      (evs :: r.1, r.2)

/-! ## Buffered option-trade handler
(`archive/phase1/ingestion_phase1/handlers/option_trades.py`, `OptionTradeHandler`) -/

/-- A parsed `OptionTradeMessage`, identified by its ticker and an id. -/
structure OptionTradeMessage where
  ticker : String
  trade_id : Nat
deriving DecidableEq, Repr

/-- One call to a collaborator during a flush. -/
inductive TradeCall
  | bulk_insert_option_trades (batch : List OptionTradeMessage)
  | publish_option_trade (message : OptionTradeMessage)
deriving DecidableEq, Repr

/-- `OptionTradeHandler` state: configured ticker set (upper-cased), buffer
size, flush interval, the mutex-guarded buffer, and `self._last_flush`
(monotonic seconds). -/
structure OptionTradeHandlerState where
  tickers : List String
  buffer_size : Nat
  flush_interval : ℚ
  buffer : List OptionTradeMessage
  last_flush : ℚ
deriving DecidableEq, Repr

/-- `OptionTradeHandler._flush` at monotonic time `now`: nothing when the
buffer is empty; otherwise swap the buffer for an empty one, reset the flush
clock, bulk-persist the batch, then publish each item individually, in batch
order. -/
def OptionTradeHandler.flush (s : OptionTradeHandlerState) (now : ℚ) :
    OptionTradeHandlerState × List TradeCall :=
  if s.buffer.isEmpty then (s, [])
  else
    ({ s with buffer := [], last_flush := now },
      TradeCall.bulk_insert_option_trades s.buffer ::
        s.buffer.map TradeCall.publish_option_trade)

/-- `OptionTradeHandler.handle` at monotonic time `now`: drop messages outside
the ticker set; otherwise append to the buffer and flush when the buffer has
reached `buffer_size` or `flush_interval` has elapsed since the last flush. -/
def OptionTradeHandler.handle (s : OptionTradeHandlerState) (now : ℚ)
    (m : OptionTradeMessage) : OptionTradeHandlerState × List TradeCall :=
  if pyUpper m.ticker ∈ s.tickers then
    let s1 := { s with buffer := s.buffer ++ [m] }
    if s.buffer_size ≤ s1.buffer.length ∨ s.flush_interval ≤ now - s.last_flush then
      OptionTradeHandler.flush s1 now
    else (s1, [])
  else (s, [])

/-- `OptionTradeHandler.shutdown`: one final unconditional flush. -/
def OptionTradeHandler.shutdown (s : OptionTradeHandlerState) (now : ℚ) :
    OptionTradeHandlerState × List TradeCall :=
  OptionTradeHandler.flush s now

/-! ## Price handler ticker inference
(`src/ingestion/handlers/price.py`, `PriceHandler.handle` lines 45–51) -/

/-- The ticker-inference prologue of `PriceHandler.handle`: when the raw
message has no `"ticker"` key, assign one — the sole configured ticker when
exactly one is configured, else `message.get("symbol") or
message.get("underlying_symbol") or next(iter(self._tickers))` — by mutating
the message dict before normalization.  `next(iter(...))` on the configured
ticker set is modelled as the head of the list (it raises `StopIteration` on
an empty set). -/
def PriceHandler.infer_ticker (tickers : List String)
    (message : List (String × JValue)) : Except String (List (String × JValue)) :=
  if (message.lookup "ticker").isSome then .ok message
  else if tickers.length = 1 then
    match tickers with
    | [] => .error "StopIteration"
    | t :: _ => .ok (upsert "ticker" (.str t) message)
  else
    let v := (pyGet message "symbol").pyOr (pyGet message "underlying_symbol")
    if v.truthy then .ok (upsert "ticker" v message)
    else
      match tickers with
      | [] => .error "StopIteration"
      | t :: _ => .ok (upsert "ticker" (.str t) message)

/-! ## Helper lemmas about association lists, the drain loop, and the reconnect loop -/

theorem upsert_keys {β : Type} (k : String) (v : β) (s : List (String × β)) :
    (upsert k v s).map Prod.fst =
      if k ∈ s.map Prod.fst then s.map Prod.fst else s.map Prod.fst ++ [k] := by
  induction s with
  | nil => simp [upsert]
  | cons p rest ih =>
      obtain ⟨k', v'⟩ := p
      by_cases h : k' = k
      · subst h
        simp [upsert]
      · simp only [upsert, if_neg h, List.map_cons, List.mem_cons, ih]
        by_cases hmem : k ∈ rest.map Prod.fst
        · simp [hmem, Ne.symm h]
        · simp [hmem, Ne.symm h]

theorem upsert_keys_nodup {β : Type} (k : String) (v : β) (s : List (String × β))
    (h : (s.map Prod.fst).Nodup) : ((upsert k v s).map Prod.fst).Nodup := by
  rw [upsert_keys]
  by_cases hmem : k ∈ s.map Prod.fst
  · simpa [hmem] using h
  · rw [if_neg hmem]
    refine h.append (List.nodup_singleton k) ?_
    intro a ha hb
    rw [List.mem_singleton] at hb
    exact hmem (hb ▸ ha)

theorem mem_upsert {β : Type} (p : String × β) (k : String) (v : β) :
    ∀ s : List (String × β), p ∈ upsert k v s → p = (k, v) ∨ p ∈ s := by
  intro s
  induction s with
  | nil => intro h; simpa [upsert] using h
  | cons q rest ih =>
      obtain ⟨k', v'⟩ := q
      intro h
      by_cases hk : k' = k
      · subst hk
        simp only [upsert, eq_self_iff_true, if_true, List.mem_cons] at h
        rcases h with h | h
        · exact Or.inl h
        · exact Or.inr (List.mem_cons_of_mem _ h)
      · simp only [upsert, if_neg hk, List.mem_cons] at h
        rcases h with h | h
        · exact Or.inr (by simp [h])
        · rcases ih h with h' | h'
          · exact Or.inl h'
          · exact Or.inr (List.mem_cons_of_mem _ h')

theorem lookup_mem {β : Type} :
    ∀ (s : List (String × β)) (k : String) (v : β), s.lookup k = some v → (k, v) ∈ s := by
  intro s
  induction s with
  | nil => intro k v h; simp [List.lookup] at h
  | cons q rest ih =>
      intro k v h
      obtain ⟨k', v'⟩ := q
      by_cases hk : k = k'
      · subst hk
        simp [List.lookup] at h
        simp [h]
      · have hne : (k == k') = false := by simp [hk]
        simp only [List.lookup, hne] at h
        exact List.mem_cons_of_mem _ (ih _ _ h)

theorem upsert_eq_append {β : Type} :
    ∀ (s : List (String × β)) (k : String) (v : β),
      s.lookup k = none → upsert k v s = s ++ [(k, v)] := by
  intro s
  induction s with
  | nil => intro k v _; rfl
  | cons q rest ih =>
      intro k v h
      obtain ⟨k', v'⟩ := q
      by_cases hk : k = k'
      · subst hk
        simp [List.lookup] at h
      · have hne : (k == k') = false := by simp [hk]
        simp only [List.lookup, hne] at h
        have hkk : ¬ (k' = k) := fun hh => hk hh.symm
        simp only [upsert, if_neg hkk, List.cons_append, List.cons.injEq, true_and]
        exact ih k v h

theorem drain_waiters_take_drop (t : ℚ) (ws : List Waiter) :
    ∃ k, (TokenBucket.drain_waiters t ws).2.1 = ws.drop k ∧
      (TokenBucket.drain_waiters t ws).2.2 = (ws.take k).filter (fun w => !w.done) ∧
      (TokenBucket.drain_waiters t ws).1 =
        t - waiterReqSum ((ws.take k).filter (fun w => !w.done)) := by
  induction ws generalizing t with
  | nil =>
      refine ⟨0, by simp [TokenBucket.drain_waiters], by simp [TokenBucket.drain_waiters], ?_⟩
      simp [TokenBucket.drain_waiters, waiterReqSum]
  | cons w rest ih =>
      by_cases hc : (w.req : ℚ) ≤ t
      · by_cases hd : w.done
        · obtain ⟨k, h1, h2, h3⟩ := ih t
          refine ⟨k + 1, ?_, ?_, ?_⟩
          · simpa [TokenBucket.drain_waiters, hc, hd] using h1
          · simpa [TokenBucket.drain_waiters, hc, hd, List.filter] using h2
          · simpa [TokenBucket.drain_waiters, hc, hd, List.filter] using h3
        · obtain ⟨k, h1, h2, h3⟩ := ih (t - (w.req : ℚ))
          refine ⟨k + 1, ?_, ?_, ?_⟩
          · simpa [TokenBucket.drain_waiters, hc, hd] using h1
          · simp only [TokenBucket.drain_waiters, if_pos hc, if_neg hd, List.take_succ_cons,
              List.filter_cons, hd, Bool.not_false, if_pos]
            simpa using h2
          · simp only [TokenBucket.drain_waiters, if_pos hc, if_neg hd, List.take_succ_cons,
              List.filter_cons, hd, Bool.not_false, if_pos]
            simp only [waiterReqSum, List.map_cons, List.sum_cons]
            rw [h3]
            simp [waiterReqSum]
            ring
      · refine ⟨0, ?_, ?_, ?_⟩
        · simp [TokenBucket.drain_waiters, hc]
        · simp [TokenBucket.drain_waiters, hc]
        · simp [TokenBucket.drain_waiters, hc, waiterReqSum]

theorem drain_waiters_nonneg (t : ℚ) (ws : List Waiter) (h : 0 ≤ t) :
    0 ≤ (TokenBucket.drain_waiters t ws).1 := by
  induction ws generalizing t with
  | nil => simpa [TokenBucket.drain_waiters] using h
  | cons w rest ih =>
      by_cases hc : (w.req : ℚ) ≤ t
      · by_cases hd : w.done
        · simpa [TokenBucket.drain_waiters, hc, hd] using ih t h
        · simpa [TokenBucket.drain_waiters, hc, hd] using
            ih (t - (w.req : ℚ)) (by linarith)
      · simpa [TokenBucket.drain_waiters, hc] using h

theorem runDelays_replicate_connectFailed (s : ReconnectSettings) :
    ∀ (L a : Nat), a + L ≤ s.reconnect_max_attempts →
      WebsocketConsumer.runDelays s a (List.replicate L .connectFailed) =
        (List.range L).map (fun j => backoffDelay s (a + j + 1)) := by
  intro L
  induction L with
  | zero => intro a _; simp [WebsocketConsumer.runDelays]
  | succ L ih =>
      intro a ha
      rw [List.replicate_succ]
      have hlt : ¬ s.reconnect_max_attempts ≤ a + 1 ∨ L = 0 := by
        by_cases hL : L = 0
        · exact Or.inr hL
        · refine Or.inl ?_
          have : a + 1 + 1 ≤ a + (L + 1) := by omega
          omega
      rcases hlt with hlt | hL0
      · have : WebsocketConsumer.runDelays s a (.connectFailed :: List.replicate L .connectFailed) =
            backoffDelay s (a + 1) ::
              WebsocketConsumer.runDelays s (a + 1) (List.replicate L .connectFailed) := by
          simp [WebsocketConsumer.runDelays, if_neg hlt]
        rw [this, ih (a + 1) (by omega)]
        rw [List.range_succ_eq_map]
        simp only [List.map_cons, List.map_map]
        refine List.cons_eq_cons.mpr ⟨by norm_num, ?_⟩
        apply List.map_congr_left
        intro j _
        simp only [Function.comp_apply]
        congr 1
        omega
      · subst hL0
        simp [WebsocketConsumer.runDelays, List.range_succ_eq_map]

/-! ## Claim theorems -/

/-- Claim C3 (evidence of the code bug): the very first tick whose timestamp lies
in minute 59 of an hour makes `add_tick` raise `ValueError` out of
`rounded_start.replace(minute=rounded_start.minute + 1)` instead of returning a
bar whose end is start plus one minute. -/
theorem add_tick_minute59_raises :
    PriceBarAggregator.add_tick []
      { ticker := "SPY",
        event_timestamp := ⟨2024, 1, 2, 9, 59, 30, 0⟩,
        last_price := 100 } = .error "minute must be in 0..59" := by
  decide

/-- Claim C4: starting from an empty aggregator, ticks for SPY at 09:30:00
(price 100) and 09:30:30 (price 105) both return `completed = none` and leave
the current bar (start 09:30, open 100, high 105, low 100, close 105); the
subsequent tick at 09:31:05 (price 103) returns exactly that bar as completed
and opens a current bar with start 09:31 and open=high=low=close=103. -/
theorem add_tick_scenario_0930 :
    PriceBarAggregator.add_tick []
      { ticker := "SPY", event_timestamp := ⟨2024, 1, 2, 9, 30, 0, 0⟩, last_price := 100 } =
      .ok (none, ⟨"SPY", ⟨2024, 1, 2, 9, 30, 0, 0⟩, ⟨2024, 1, 2, 9, 31, 0, 0⟩, 100, 100, 100, 100⟩,
        [("SPY", ⟨"SPY", ⟨2024, 1, 2, 9, 30, 0, 0⟩, ⟨2024, 1, 2, 9, 31, 0, 0⟩, 100, 100, 100, 100⟩)])
    ∧ PriceBarAggregator.add_tick
        [("SPY", ⟨"SPY", ⟨2024, 1, 2, 9, 30, 0, 0⟩, ⟨2024, 1, 2, 9, 31, 0, 0⟩, 100, 100, 100, 100⟩)]
        { ticker := "SPY", event_timestamp := ⟨2024, 1, 2, 9, 30, 30, 0⟩, last_price := 105 } =
      .ok (none, ⟨"SPY", ⟨2024, 1, 2, 9, 30, 0, 0⟩, ⟨2024, 1, 2, 9, 31, 0, 0⟩, 100, 105, 100, 105⟩,
        [("SPY", ⟨"SPY", ⟨2024, 1, 2, 9, 30, 0, 0⟩, ⟨2024, 1, 2, 9, 31, 0, 0⟩, 100, 105, 100, 105⟩)])
    ∧ PriceBarAggregator.add_tick
        [("SPY", ⟨"SPY", ⟨2024, 1, 2, 9, 30, 0, 0⟩, ⟨2024, 1, 2, 9, 31, 0, 0⟩, 100, 105, 100, 105⟩)]
        { ticker := "SPY", event_timestamp := ⟨2024, 1, 2, 9, 31, 5, 0⟩, last_price := 103 } =
      .ok (some ⟨"SPY", ⟨2024, 1, 2, 9, 30, 0, 0⟩, ⟨2024, 1, 2, 9, 31, 0, 0⟩, 100, 105, 100, 105⟩,
        ⟨"SPY", ⟨2024, 1, 2, 9, 31, 0, 0⟩, ⟨2024, 1, 2, 9, 32, 0, 0⟩, 103, 103, 103, 103⟩,
        [("SPY", ⟨"SPY", ⟨2024, 1, 2, 9, 31, 0, 0⟩, ⟨2024, 1, 2, 9, 32, 0, 0⟩, 103, 103, 103, 103⟩)]) := by
  refine ⟨by decide, by decide, by decide⟩

/-- Claim C9: whenever the per-ticker state is OHLC-well-formed with at most one
current bar per ticker (keys without duplicates), any successful `add_tick`
returns a well-formed current bar, a well-formed completed bar when one is
emitted, and a state that again is well-formed with duplicate-free keys. -/
theorem add_tick_preserves_invariant
    (state : List (String × PriceBar)) (message : PriceTickMessage)
    (hwf : ∀ p ∈ state, PriceBar.wf p.2)
    (hnd : (state.map Prod.fst).Nodup) :
    ∀ completed current state',
      PriceBarAggregator.add_tick state message = .ok (completed, current, state') →
      PriceBar.wf current ∧
      (∀ bar, completed = some bar → PriceBar.wf bar) ∧
      (∀ p ∈ state', PriceBar.wf p.2) ∧
      (state'.map Prod.fst).Nodup := by
  intro completed current state' h
  have hfreshwf : ∀ (d d' : DateTime) (q : ℚ), PriceBar.wf
      ⟨pyUpper message.ticker, d, d', q, q, q, q⟩ := by
    intro d d' q; exact ⟨le_refl q, le_refl q, le_refl q, le_refl q, le_refl q⟩
  by_cases hm : message.event_timestamp.truncToMinute.minute + 1 ≤ 59
  · cases hl : state.lookup (pyUpper message.ticker) with
    | none =>
      simp only [PriceBarAggregator.add_tick, DateTime.replaceMinute, if_pos hm, hl,
        Except.ok.injEq, Prod.mk.injEq] at h
      obtain ⟨hco, hcu, hst⟩ := h
      subst hco hcu hst
      refine ⟨hfreshwf _ _ _, ?_, ?_, upsert_keys_nodup _ _ _ hnd⟩
      · intro bar hbar
        cases hbar
      · intro p hp
        rcases mem_upsert p _ _ _ hp with hpe | hpm
        · rw [hpe]; exact hfreshwf _ _ _
        · exact hwf p hpm
    | some cur =>
      have hcurwf : PriceBar.wf cur := hwf _ (lookup_mem _ _ _ hl)
      by_cases hst : cur.start ≠ message.event_timestamp.truncToMinute
      · simp only [PriceBarAggregator.add_tick, DateTime.replaceMinute, if_pos hm, hl,
          if_pos hst, Except.ok.injEq, Prod.mk.injEq] at h
        obtain ⟨hco, hcu, hsx⟩ := h
        subst hco hcu hsx
        refine ⟨hfreshwf _ _ _, ?_, ?_, upsert_keys_nodup _ _ _ hnd⟩
        · intro bar hbar
          cases hbar
          exact hcurwf
        · intro p hp
          rcases mem_upsert p _ _ _ hp with hpe | hpm
          · rw [hpe]; exact hfreshwf _ _ _
          · exact hwf p hpm
      · simp only [PriceBarAggregator.add_tick, DateTime.replaceMinute, if_pos hm, hl,
          if_neg hst, Except.ok.injEq, Prod.mk.injEq] at h
        obtain ⟨hco, hcu, hsx⟩ := h
        subst hco hcu hsx
        have hupd : PriceBar.wf
            { cur with
              high := max cur.high message.last_price,
              low := min cur.low message.last_price,
              close := message.last_price } := by
          refine ⟨?_, ?_, ?_, ?_, ?_⟩
          · exact le_trans (min_le_left _ _) (le_trans hcurwf.1 (le_max_left _ _))
          · exact le_trans hcurwf.2.1 (le_max_left _ _)
          · exact le_max_right _ _
          · exact le_trans (min_le_left _ _) hcurwf.2.2.2.1
          · exact min_le_right _ _
        refine ⟨hupd, ?_, ?_, upsert_keys_nodup _ _ _ hnd⟩
        · intro bar hbar
          cases hbar
        · intro p hp
          rcases mem_upsert p _ _ _ hp with hpe | hpm
          · rw [hpe]; exact hupd
          · exact hwf p hpm
  · simp only [PriceBarAggregator.add_tick, DateTime.replaceMinute, if_neg hm] at h
    cases h

/-- Witness for C9: the invariant theorem applied to the empty aggregator and
the 09:30:00 tick yields well-formedness of the concrete opened bar. -/
theorem add_tick_preserves_invariant_witness :
    PriceBar.wf ⟨"SPY", ⟨2024, 1, 2, 9, 30, 0, 0⟩, ⟨2024, 1, 2, 9, 31, 0, 0⟩, 100, 100, 100, 100⟩ :=
  (add_tick_preserves_invariant []
    { ticker := "SPY", event_timestamp := ⟨2024, 1, 2, 9, 30, 0, 0⟩, last_price := 100 }
    (by intro p hp; cases hp) (by simp)
    none ⟨"SPY", ⟨2024, 1, 2, 9, 30, 0, 0⟩, ⟨2024, 1, 2, 9, 31, 0, 0⟩, 100, 100, 100, 100⟩
    [("SPY", ⟨"SPY", ⟨2024, 1, 2, 9, 30, 0, 0⟩, ⟨2024, 1, 2, 9, 31, 0, 0⟩, 100, 100, 100, 100⟩)]
    (by decide)).1

/-- Claim C1: (1) an `acquire` that finds the waiter queue non-empty (after the
refill step) never takes the immediate-debit path — it is appended at the tail
with the bucket's tokens untouched; (2) the drain releases exactly the
non-cancelled members of a prefix of the FIFO queue, debiting the sum of their
requests, so no later waiter is served while an earlier one still waits; (3) a
head waiter whose request exceeds the available tokens blocks the entire queue;
(4) the token count never goes negative, i.e. every release was covered by the
accumulated tokens. -/
theorem tokenBucket_fifo_no_overtake :
    (∀ (b : TokenBucket) (e r : ℚ) (i n : Nat),
        (b.refill e r).1.waiters ≠ [] →
        (b.acquire e r i n).2.2 = AcquireResult.queued ∧
        (b.acquire e r i n).1.tokens = (b.refill e r).1.tokens ∧
        (b.acquire e r i n).1.waiters = (b.refill e r).1.waiters ++ [⟨i, n, false⟩])
    ∧ (∀ (t : ℚ) (ws : List Waiter),
        ∃ k, (TokenBucket.drain_waiters t ws).2.1 = ws.drop k ∧
          (TokenBucket.drain_waiters t ws).2.2 = (ws.take k).filter (fun w => !w.done) ∧
          (TokenBucket.drain_waiters t ws).1 =
            t - waiterReqSum ((ws.take k).filter (fun w => !w.done)))
    ∧ (∀ (t : ℚ) (w : Waiter) (rest : List Waiter),
        ¬ ((w.req : ℚ) ≤ t) →
        TokenBucket.drain_waiters t (w :: rest) = (t, w :: rest, []))
    ∧ (∀ (t : ℚ) (ws : List Waiter), 0 ≤ t → 0 ≤ (TokenBucket.drain_waiters t ws).1) := by
  refine ⟨?_, drain_waiters_take_drop, ?_, drain_waiters_nonneg⟩
  · intro b e r i n hne
    have hcond : ¬ ((n : ℚ) ≤ (b.refill e r).1.tokens ∧ (b.refill e r).1.waiters = []) := by
      intro hand
      exact hne hand.2
    refine ⟨?_, ?_, ?_⟩ <;>
      simp [TokenBucket.acquire, if_neg hcond]
  · intro t w rest hc
    simp [TokenBucket.drain_waiters, hc]

/-- Witness for C1: a bucket holding 3 tokens with a waiter for 5 queued; a
later `acquire(1)` is queued behind it even though 1 ≤ 3, and the stalled head
blocks the drain. -/
theorem tokenBucket_fifo_no_overtake_witness :
    ((TokenBucket.mk 10 3 [⟨0, 5, false⟩]).refill 0 1).1.waiters ≠ [] ∧
    ((TokenBucket.mk 10 3 [⟨0, 5, false⟩]).acquire 0 1 1 1).2.2 = AcquireResult.queued ∧
    ¬ ((5 : ℚ) ≤ 3) ∧
    TokenBucket.drain_waiters 3 [⟨0, 5, false⟩, ⟨1, 1, false⟩] =
      (3, [⟨0, 5, false⟩, ⟨1, 1, false⟩], []) := by
  refine ⟨by decide, (tokenBucket_fifo_no_overtake.1 (TokenBucket.mk 10 3 [⟨0, 5, false⟩])
    0 1 1 1 (by decide)).1, by norm_num, ?_⟩
  exact tokenBucket_fifo_no_overtake.2.2.1 3 ⟨0, 5, false⟩ [⟨1, 1, false⟩] (by norm_num)

/-- Claim C2 (amended): (1) for up to `reconnect_max_attempts` consecutive
raising connection cycles starting with a zero counter, the k-th delay is
`min(reconnect_min_seconds * 2^(k-1), reconnect_max_seconds)`; (2) a cycle
that streamed successfully and then dropped behaves exactly like an immediate
connection failure — it does NOT reset the attempt counter; (3) only a clean
stop ends the loop with no further delay; (4) when the incremented counter
reaches `reconnect_max_attempts` the counter silently resets to zero after
the sleep, so the following failure's delay restarts the doubling at
`reconnect_min_seconds`. -/
theorem websocket_backoff_behaviour (s : ReconnectSettings) :
    (∀ L, L ≤ s.reconnect_max_attempts →
      WebsocketConsumer.runDelays s 0 (List.replicate L .connectFailed) =
        (List.range L).map (fun j =>
          min (s.reconnect_min_seconds * 2 ^ j) s.reconnect_max_seconds))
    ∧ (∀ a rest,
        WebsocketConsumer.runDelays s a (.streamedThenDropped :: rest) =
          WebsocketConsumer.runDelays s a (.connectFailed :: rest))
    ∧ (∀ a rest, WebsocketConsumer.runDelays s a (.stoppedCleanly :: rest) = [])
    ∧ (∀ a rest, s.reconnect_max_attempts ≤ a + 1 →
        WebsocketConsumer.runDelays s a (.connectFailed :: rest) =
          backoffDelay s (a + 1) :: WebsocketConsumer.runDelays s 0 rest) := by
  refine ⟨?_, ?_, ?_, ?_⟩
  · intro L hL
    have h := runDelays_replicate_connectFailed s L 0 (by omega)
    rw [h]
    apply List.map_congr_left
    intro j _
    simp [backoffDelay]
  · intro a rest
    simp [WebsocketConsumer.runDelays]
  · intro a rest
    simp [WebsocketConsumer.runDelays]
  · intro a rest hcap
    simp [WebsocketConsumer.runDelays, if_pos hcap]

/-- Witness for C2's amended theorem: with min 5s, max 60s, cap 5, five
consecutive failures sleep 5, 10, 20, 40, 60 seconds. -/
theorem websocket_backoff_behaviour_witness :
    WebsocketConsumer.runDelays ⟨5, 60, 5⟩ 0 (List.replicate 5 .connectFailed) =
      [5, 10, 20, 40, 60] := by
  have h := (websocket_backoff_behaviour ⟨5, 60, 5⟩).1 5 (by norm_num)
  rw [h]
  have hr : List.range 5 = [0, 1, 2, 3, 4] := by decide
  rw [hr]
  norm_num

/-- Counterexample for Claim C2 as stated: with min 5s, max 60s and the
configured attempt cap 5, six consecutive failures sleep 5, 10, 20, 40, 60, 5 —
the sixth delay is 5, not `min(5 * 2^5, 60) = 60`, because reaching the cap
silently reset the counter; and a streamed-then-dropped cycle does not reset
the counter: after [failure, streamed-then-dropped] the next failure's delay
is 20, not 5. -/
theorem websocket_backoff_claim_counterexample :
    WebsocketConsumer.runDelays ⟨5, 60, 5⟩ 0 (List.replicate 6 .connectFailed) =
      [5, 10, 20, 40, 60, 5]
    ∧ min ((5 : ℚ) * 2 ^ (6 - 1)) 60 = 60
    ∧ WebsocketConsumer.runDelays ⟨5, 60, 5⟩ 0
        [.connectFailed, .streamedThenDropped, .connectFailed] = [5, 10, 20]
    ∧ ((5 : ℚ) ≠ 60 ∧ (20 : ℚ) ≠ 5) := by
  refine ⟨?_, by norm_num, ?_, by norm_num⟩
  · simp only [List.replicate, WebsocketConsumer.runDelays, backoffDelay]
    norm_num
  · simp only [WebsocketConsumer.runDelays, backoffDelay]
    norm_num

/-- Counterexample for Claim C6 as stated: a 429 response carrying a server
retry hint of 99 seconds is followed by a sleep of the fixed fallback 10
seconds, not 99 — the code never reads the hint. -/
theorem rest_429_hint_counterexample :
    RestScheduler.run_request [⟨429, some 99, .null⟩] 0 10 = ([10], none) ∧
    (10 : ℚ) ≠ 99 := by
  constructor
  · simp only [RestScheduler.run_request]
    norm_num
  · norm_num

/-- Claim C6 (amended): (1) the sleeps and outcome of `_run_request` are
invariant under arbitrary rewriting of the server retry hints — the code never
consults them; (2) against consecutive 429 responses the scheduler sleeps the
fixed fallback 10 s doubled per attempt and capped at 120 s
(10, 20, 40 within the 3-attempt budget) and abandons the request without
raising after the 3rd attempt, so the job is skipped for that cycle and never
fatal to the scheduler loop. -/
theorem rest_429_fixed_backoff (rs : List RestResponse) :
    (∀ (f : RestResponse → Option ℚ) (a : Nat) (b : ℚ),
      RestScheduler.run_request (rs.map fun resp => { resp with retryAfter := f resp }) a b =
        RestScheduler.run_request rs a b)
    ∧ ((∀ resp ∈ rs, resp.status_code = 429) →
      RestScheduler.run_request rs 0 10 =
        ((List.range (min rs.length 3)).map (fun j => min ((10 : ℚ) * 2 ^ j) 120),
          if 3 ≤ rs.length then some RunOutcome.abandoned else none)) := by
  constructor
  · intro f
    induction rs with
    | nil => intro a b; simp [RestScheduler.run_request]
    | cons resp rest ih =>
        intro a b
        simp only [List.map_cons, RestScheduler.run_request, ih]
  · intro h429
    match rs, h429 with
    | [], _ => simp [RestScheduler.run_request]
    | [r1], h =>
        have h1 : r1.status_code = 429 := h r1 (by simp)
        simp only [RestScheduler.run_request, h1, if_pos rfl]
        norm_num [List.range_succ]
    | [r1, r2], h =>
        have h1 : r1.status_code = 429 := h r1 (by simp)
        have h2 : r2.status_code = 429 := h r2 (by simp)
        simp only [RestScheduler.run_request, h1, h2, if_pos rfl]
        norm_num [List.range_succ]
    | r1 :: r2 :: r3 :: rest, h =>
        have h1 : r1.status_code = 429 := h r1 (by simp)
        have h2 : r2.status_code = 429 := h r2 (by simp)
        have h3 : r3.status_code = 429 := h r3 (by simp)
        simp only [RestScheduler.run_request, h1, h2, h3, if_pos rfl]
        norm_num [List.range_succ]

/-- Witness for C6's amended theorem: a single 429 response (no hint) gives one
10-second sleep and no terminal outcome yet. -/
theorem rest_429_fixed_backoff_witness :
    RestScheduler.run_request [⟨429, none, .null⟩] 0 10 = ([10], none) := by
  have h := (rest_429_fixed_backoff [⟨429, none, .null⟩]).2
    (by intro resp hresp; simp at hresp; rw [hresp])
  rw [h]
  norm_num [List.range_succ]

/-- Counterexample for Claim C7 as stated: the frame
`\x7b"topic": "price", "a": 1\x7d` carries its channel identifier under the
well-known key `topic` and has no dict-valued `data`/`payload`, yet the frame
is dropped (`extract_data` returns `None`, so `decodeFrame` is `none`) instead
of being dispatched with payload `\x7b"a": 1\x7d` — the flattening branch
requires the literal key `"channel"`. -/
theorem websocket_flatten_counterexample :
    WebsocketConsumer.extract_channel [("topic", .str "price"), ("a", .num 1)] = .str "price"
    ∧ (JValue.str "price").truthy = true
    ∧ WebsocketConsumer.extract_data [("topic", .str "price"), ("a", .num 1)] = none
    ∧ WebsocketConsumer.decodeFrame [("topic", .str "price"), ("a", .num 1)] = none := by
  refine ⟨?_, rfl, ?_, ?_⟩
  · rfl
  · rfl
  · rfl

/-- Claim C7 (amended): (1) when the literal key `"channel"` is present and
neither `data` nor `payload` holds a dict, the payload handed to handlers is
the remaining top-level fields with `channel`/`topic`/`stream` removed (the
channel identifier having been extracted first-truthy-wins from
`channel`/`topic`/`stream`); (2) a frame whose extracted channel is falsy or
whose extracted data is `None` — which includes every `topic`/`stream`-only
frame without a dict `data`/`payload` — is dropped, returning `none` to the
caller rather than raising. -/
theorem websocket_flatten_requires_channel_key :
    (∀ fs : List (String × JValue),
      (fs.lookup "channel").isSome →
      (∀ d, fs.lookup "data" = some d → d.isObj = false) →
      (∀ d, fs.lookup "payload" = some d → d.isObj = false) →
      WebsocketConsumer.extract_data fs =
        some (fs.filter fun p => !(p.1 == "channel" || p.1 == "topic" || p.1 == "stream")))
    ∧ (∀ fs : List (String × JValue),
      (WebsocketConsumer.extract_channel fs).truthy = false ∨
        WebsocketConsumer.extract_data fs = none →
      WebsocketConsumer.decodeFrame fs = none) := by
  constructor
  · intro fs hch hdata hpayload
    unfold WebsocketConsumer.extract_data
    have hgoal : ∀ x, fs.lookup "payload" = x →
        (∀ d, x = some d → d.isObj = false) →
        (match x with
          | some (.obj d) => some d
          | _ =>
            if (fs.lookup "channel").isSome then
              some (fs.filter fun p => !(p.1 == "channel" || p.1 == "topic" || p.1 == "stream"))
            else none) =
          some (fs.filter fun p =>
            !(p.1 == "channel" || p.1 == "topic" || p.1 == "stream")) := by
      intro x hx hxobj
      match x with
      | none => simp [hch]
      | some .null | some (.bool _) | some (.num _) | some (.str _) | some (.arr _) =>
          simp [hch]
      | some (.obj d) =>
          have := hxobj (.obj d) rfl
          simp [JValue.isObj] at this
    match hdd : fs.lookup "data" with
    | none =>
        exact hgoal (fs.lookup "payload") rfl (by intro d hd; exact hpayload d hd)
    | some .null | some (.bool _) | some (.num _) | some (.str _) | some (.arr _) =>
        exact hgoal (fs.lookup "payload") rfl (by intro d hd; exact hpayload d hd)
    | some (.obj d) =>
        have := hdata (.obj d) hdd
        simp [JValue.isObj] at this
  · intro fs hdrop
    unfold WebsocketConsumer.decodeFrame
    rcases hdrop with hfalse | hnone
    · match hx : WebsocketConsumer.extract_data fs with
      | none => rfl
      | some data => simp [hfalse]
    · rw [hnone]

/-- Witness for C7's amended theorem: the frame
`\x7b"channel": "price", "a": 1\x7d` flattens to payload `\x7b"a": 1\x7d`, and
a frame with no channel at all is dropped. -/
theorem websocket_flatten_requires_channel_key_witness :
    WebsocketConsumer.extract_data [("channel", .str "price"), ("a", .num 1)] =
      some [("a", .num 1)]
    ∧ WebsocketConsumer.decodeFrame [("a", .num 1)] = none := by
  constructor
  · have h := websocket_flatten_requires_channel_key.1
      [("channel", .str "price"), ("a", .num 1)] (by rfl)
      (by intro d hd; simp [List.lookup] at hd) (by intro d hd; simp [List.lookup] at hd)
    rw [h]
    rfl
  · exact websocket_flatten_requires_channel_key.2 [("a", .num 1)] (Or.inl rfl)

/-- Claim C8: (1) when the first handler for a channel raises, its exception is
caught and logged and the remaining handlers still run, producing exactly the
events of the rest of the list; (2) every registered handler of the channel is
invoked exactly once, in registration order, whatever each handler's
behaviour; (3) dispatching a frame that decodes to a string channel — the only
kind that has registered handlers — returns normally (the per-handler
try/except confines every handler exception), invoking that channel's handlers
in registration order; (4) the consumer loop goes on to the next frame after
any dispatch that returns normally — in particular after a frame whose
handlers raised — so handler failures never cost a later frame.  (A frame
whose channel value is a list or dict does raise `TypeError` out of the
registry lookup and ends the connection; no handler is registered under such a
channel, and the claim's setting — several handlers registered for the frame's
channel — forces a string channel.) -/
theorem websocket_handler_isolation :
    (∀ (h : ChannelHandler) (rest : List ChannelHandler)
        (data : List (String × JValue)) (e : String),
      h.behaviour data = .error e →
      WebsocketConsumer.runHandlers (h :: rest) data =
        DispatchEvent.loggedError h.hid e :: WebsocketConsumer.runHandlers rest data)
    ∧ (∀ (hs : List ChannelHandler) (data : List (String × JValue)),
      (WebsocketConsumer.runHandlers hs data).map DispatchEvent.source =
        hs.map ChannelHandler.hid)
    ∧ (∀ (registry : List ChannelHandler) (fs : List (String × JValue))
        (name : String) (data : List (String × JValue)),
      WebsocketConsumer.decodeFrame fs = some (.str name, data) →
      WebsocketConsumer.dispatch registry (.ok fs) =
        .ok (WebsocketConsumer.runHandlers
          (registry.filter fun h => h.channel == name) data))
    ∧ (∀ (registry : List ChannelHandler)
        (frame : Except Unit (List (String × JValue)))
        (rest : List (Except Unit (List (String × JValue))))
        (evs : List DispatchEvent),
      WebsocketConsumer.dispatch registry frame = .ok evs →
      WebsocketConsumer.listen registry (frame :: rest) =
        (evs :: (WebsocketConsumer.listen registry rest).1,
          (WebsocketConsumer.listen registry rest).2)) := by
  refine ⟨?_, ?_, ?_, ?_⟩
  · intro h rest data e herr
    simp [WebsocketConsumer.runHandlers, herr]
  · intro hs data
    induction hs with
    | nil => simp [WebsocketConsumer.runHandlers]
    | cons h rest ih =>
        simp only [WebsocketConsumer.runHandlers, List.map_cons, ih, List.cons.injEq]
        constructor
        · match h.behaviour data with
          | .ok _ => rfl
          | .error _ => rfl
        · trivial
  · intro registry fs name data hdec
    simp [WebsocketConsumer.dispatch, hdec, WebsocketConsumer.handlersFor]
  · intro registry frame rest evs hok
    simp [WebsocketConsumer.listen, hok]

/-- Witness for C8: two handlers registered on channel `price`, the first
raising; its exception is logged, the second handler still runs, the dispatch
of the frame returns normally, and the connection loop processes both frames
of a two-frame trace with no escaped exception. -/
theorem websocket_handler_isolation_witness :
    WebsocketConsumer.runHandlers
      [⟨"price", 1, fun _ => .error "boom"⟩, ⟨"price", 2, fun _ => .ok ()⟩] [] =
      [DispatchEvent.loggedError 1 "boom", DispatchEvent.handled 2]
    ∧ (WebsocketConsumer.runHandlers
        [⟨"price", 1, fun _ => .error "boom"⟩, ⟨"price", 2, fun _ => .ok ()⟩]
        []).map DispatchEvent.source = [1, 2]
    ∧ WebsocketConsumer.listen
        [⟨"price", 1, fun _ => .error "boom"⟩, ⟨"price", 2, fun _ => .ok ()⟩]
        [.ok [("channel", .str "price")], .ok [("channel", .str "price")]] =
      ([[DispatchEvent.loggedError 1 "boom", DispatchEvent.handled 2],
        [DispatchEvent.loggedError 1 "boom", DispatchEvent.handled 2]], none) := by
  refine ⟨?_, ?_, ?_⟩
  · rw [websocket_handler_isolation.1 ⟨"price", 1, fun _ => .error "boom"⟩
      [⟨"price", 2, fun _ => .ok ()⟩] [] "boom" rfl]
    rfl
  · rw [websocket_handler_isolation.2.1
      [⟨"price", 1, fun _ => .error "boom"⟩, ⟨"price", 2, fun _ => .ok ()⟩] []]
    rfl
  · have hd := websocket_handler_isolation.2.2.1
      [⟨"price", 1, fun _ => .error "boom"⟩, ⟨"price", 2, fun _ => .ok ()⟩]
      [("channel", .str "price")] "price" [] rfl
    rw [websocket_handler_isolation.2.2.2 _ _ _ _ hd,
      websocket_handler_isolation.2.2.2 _ _ _ _ hd]
    rfl

/-- Claim C5: with buffer_size 2 and flush_interval 10 s, trades SPY#1 at t=3
and SPY#2 at t=5 produce no call then exactly one bulk-persist of [#1, #2]
followed by the two individual publishes, leaving the buffer empty and the
flush clock reset to 5; a third trade at t=7 is buffered without calls, and
shutdown at t=8 performs exactly one additional flush of the remainder. -/
theorem optionTrades_buffered_flush_scenario :
    OptionTradeHandler.handle ⟨["SPY"], 2, 10, [], 0⟩ 3 ⟨"SPY", 1⟩ =
      (⟨["SPY"], 2, 10, [⟨"SPY", 1⟩], 0⟩, [])
    ∧ OptionTradeHandler.handle ⟨["SPY"], 2, 10, [⟨"SPY", 1⟩], 0⟩ 5 ⟨"SPY", 2⟩ =
      (⟨["SPY"], 2, 10, [], 5⟩,
        [TradeCall.bulk_insert_option_trades [⟨"SPY", 1⟩, ⟨"SPY", 2⟩],
         TradeCall.publish_option_trade ⟨"SPY", 1⟩,
         TradeCall.publish_option_trade ⟨"SPY", 2⟩])
    ∧ OptionTradeHandler.handle ⟨["SPY"], 2, 10, [], 5⟩ 7 ⟨"SPY", 3⟩ =
      (⟨["SPY"], 2, 10, [⟨"SPY", 3⟩], 5⟩, [])
    ∧ OptionTradeHandler.shutdown ⟨["SPY"], 2, 10, [⟨"SPY", 3⟩], 5⟩ 8 =
      (⟨["SPY"], 2, 10, [], 8⟩,
        [TradeCall.bulk_insert_option_trades [⟨"SPY", 3⟩],
         TradeCall.publish_option_trade ⟨"SPY", 3⟩]) := by
  have hup : pyUpper "SPY" = "SPY" := by decide
  refine ⟨?_, ?_, ?_, ?_⟩ <;>
    norm_num [OptionTradeHandler.handle, OptionTradeHandler.flush,
      OptionTradeHandler.shutdown, hup]

/-- Claim C10: when a raw price message has no `"ticker"` key and at least one
ticker is configured, `handle` does not drop the message: it appends a
`"ticker"` entry to the caller's message dict (visible to the caller, used for
normalization) whose value is the sole configured ticker when exactly one is
configured, else the truthy `symbol`/`underlying_symbol` fallback, else some
configured ticker. -/
theorem priceHandler_ticker_inference (tickers : List String)
    (message : List (String × JValue))
    (hmiss : message.lookup "ticker" = none) (hne : tickers ≠ []) :
    ∃ v : JValue,
      PriceHandler.infer_ticker tickers message = .ok (message ++ [("ticker", v)]) ∧
      (∀ t, tickers = [t] → v = .str t) ∧
      (tickers.length ≠ 1 →
        (((pyGet message "symbol").pyOr (pyGet message "underlying_symbol")).truthy = true →
          v = (pyGet message "symbol").pyOr (pyGet message "underlying_symbol")) ∧
        (((pyGet message "symbol").pyOr (pyGet message "underlying_symbol")).truthy = false →
          ∃ t ∈ tickers, v = .str t)) := by
  by_cases hlen : tickers.length = 1
  · match tickers, hne, hlen with
    | t :: rest, _, hlen =>
        refine ⟨.str t, ?_, ?_, ?_⟩
        · simp [PriceHandler.infer_ticker, hmiss, hlen,
            upsert_eq_append message "ticker" (JValue.str t) hmiss]
        · intro t' ht'
          injection ht' with h1 _
          rw [h1]
        · intro habs
          exact absurd hlen habs
  · by_cases hv :
      ((pyGet message "symbol").pyOr (pyGet message "underlying_symbol")).truthy = true
    · refine ⟨(pyGet message "symbol").pyOr (pyGet message "underlying_symbol"), ?_, ?_, ?_⟩
      · simp [PriceHandler.infer_ticker, hmiss, hlen, hv,
          upsert_eq_append message "ticker" _ hmiss]
      · intro t' ht'
        exfalso
        exact hlen (by rw [ht']; rfl)
      · intro _
        refine ⟨fun _ => rfl, fun hfalse => ?_⟩
        rw [hfalse] at hv
        cases hv
    · match tickers, hne with
      | t :: rest, _ =>
          refine ⟨.str t, ?_, ?_, ?_⟩
          · simp [PriceHandler.infer_ticker, hmiss, hlen, hv,
              upsert_eq_append message "ticker" (JValue.str t) hmiss]
          · intro t' ht'
            exfalso
            exact hlen (by rw [ht']; rfl)
          · intro _
            refine ⟨fun htruthy => absurd htruthy hv, fun _ => ?_⟩
            exact ⟨t, List.mem_cons_self t rest, rfl⟩

/-- Witness for C10: two tickers configured and a message carrying only a
truthy `symbol`; the inference appends `("ticker", "SPY")` to the caller's
dict. -/
theorem priceHandler_ticker_inference_witness :
    ∃ v : JValue,
      PriceHandler.infer_ticker ["SPY", "QQQ"] [("symbol", .str "SPY")] =
        .ok ([("symbol", .str "SPY")] ++ [("ticker", v)]) ∧
      (∀ t, ["SPY", "QQQ"] = [t] → v = .str t) ∧
      ((["SPY", "QQQ"] : List String).length ≠ 1 →
        (((pyGet [("symbol", .str "SPY")] "symbol").pyOr
            (pyGet [("symbol", .str "SPY")] "underlying_symbol")).truthy = true →
          v = (pyGet [("symbol", .str "SPY")] "symbol").pyOr
            (pyGet [("symbol", .str "SPY")] "underlying_symbol")) ∧
        (((pyGet [("symbol", .str "SPY")] "symbol").pyOr
            (pyGet [("symbol", .str "SPY")] "underlying_symbol")).truthy = false →
          ∃ t ∈ (["SPY", "QQQ"] : List String), v = .str t)) :=
  priceHandler_ticker_inference ["SPY", "QQQ"] [("symbol", .str "SPY")] rfl
    (List.cons_ne_nil _ _)

end QC
